import Mathlib

/-!
Shallow embedding of the UnrealUtils resource registry, `UCacheBox`
(src/CacheBox/CacheBox.h and src/CacheBox/CacheBox.cpp).

Objects (`UObject*`, `UClass*`, `AActor*`, ...) are modelled as natural-number
identifiers `OId`; asset paths (`FSoftObjectPath`) as `AssetPath`.  A
`TSoftObjectPtr`/`TSoftClassPtr` is a `SoftPtr`: an optional path (`none`
models the null soft reference, so `IsNull` is `Option.isNone`).

The registry state `BoxState` holds the four `UPROPERTY` membership sets of
`UCacheBox` (`CreatedObjects`, `LoadedObjects`, `LoadedSoftObjects`,
`LoadedSoftClasses`); `TSet` insert (`Emplace`) is `Finset.insert`, `Remove`
is `Finset.erase`, `Empty` is `∅`.  Soft-pointer sets hold paths, since a
soft pointer is identified by its path; the implicit construction of a soft
pointer from a live object (`LoadedSoftObjects.Emplace(LoadedObject)`) is
`Env.pathOf`.

`Env` packages the external collaborators that the registry calls into: the
Streaming Service (`loadSync` for the blocking `LoadSynchronous`, `resolve`
for `FSoftObjectPath::ResolveObject` / `TSoftObjectPtr::Get`), the engine
RTTI (`castOk` for a `Cast<T>` to the requested subtype, `isChildOf` for
`UClass::IsChildOf(T::StaticClass())`, `isWidget` / `isActor` for the
teardown dispatch casts), object liveness (`isValidObj` for `IsValid`), and
the world provider (`worldPresent`, `spawnActor`).
-/

abbrev OId := Nat

abbrev AssetPath := Nat

/-- A `TSoftObjectPtr<UObject>` / `TSoftClassPtr<UObject>`: a soft reference
carrying an asset path, or null. -/
structure SoftPtr where
  path : Option AssetPath
deriving DecidableEq

/-- `TSoftObjectPtr::IsNull` / `TSoftClassPtr::IsNull`. -/
def SoftPtr.IsNull (sp : SoftPtr) : Bool :=
  sp.path.isNone

/-- The four `UPROPERTY` membership sets of `UCacheBox`. -/
structure BoxState where
  CreatedObjects : Finset OId
  LoadedObjects : Finset OId
  LoadedSoftObjects : Finset AssetPath
  LoadedSoftClasses : Finset AssetPath
deriving DecidableEq

/-- External collaborators of the registry: Streaming Service resolution,
engine RTTI and liveness checks, and the world provider. -/
structure Env where
  loadSync : AssetPath → Option OId
  resolve : AssetPath → Option OId
  castOk : OId → Bool
  isChildOf : OId → Bool
  pathOf : OId → AssetPath
  isWidget : OId → Bool
  isActor : OId → Bool
  isValidObj : OId → Bool
  worldPresent : Bool
  spawnActor : Option OId

/-- The type-specific teardown actions dispatched by `DestroyObject` and
`DestroyAllObjects`: `RemoveFromParent`, `AActor::Destroy`,
`ConditionalBeginDestroy`, `MarkAsGarbage`. -/
inductive TeardownKind where
  | removeFromParent
  | actorDestroy
  | condBeginDestroy
  | markAsGarbage
deriving DecidableEq

/-- One executed teardown, recording the registry state at the moment the
type-specific teardown for `target` runs (so re-entrancy can be examined). -/
structure TeardownEvent where
  target : OId
  kind : TeardownKind
  stateAtExec : BoxState
deriving DecidableEq

/-- The three-way dispatch of `UCacheBox::DestroyObject`
(CacheBox.cpp lines 215-236): widget, then actor, then the
`bPure` choice between immediate destruction and deferred reclamation. -/
def teardownOf (env : Env) (o : OId) (bPure : Bool) : TeardownKind :=
  if env.isWidget o then TeardownKind.removeFromParent
  else if env.isActor o then TeardownKind.actorDestroy
  else if bPure then TeardownKind.condBeginDestroy
  else TeardownKind.markAsGarbage

/-- Template `UCacheBox::LoadSynchronous(TSoftObjectPtr<T>)`
(CacheBox.h lines 52-69): null fails fast; otherwise the blocking load result
is cast to `T`; on success the object is emplaced into `LoadedSoftObjects`
(as the soft pointer to the loaded object) and `LoadedObjects` and returned,
otherwise nullptr (`none`) with no state change. -/
def LoadSynchronousObj (env : Env) (st : BoxState) (SoftObject : SoftPtr) :
    BoxState × Option OId :=
  match SoftObject.path with
  | some pa =>
    match env.loadSync pa with
    | some lo =>
      if env.castOk lo then
        ({ st with
            LoadedSoftObjects := insert (env.pathOf lo) st.LoadedSoftObjects,
            LoadedObjects := insert lo st.LoadedObjects }, some lo)
      else (st, none)
    | none => (st, none)
  | none => (st, none)

/-- Template `UCacheBox::LoadSynchronous(TSoftClassPtr<T>)`
(CacheBox.h lines 85-104): null fails fast; otherwise the blocking load
result, when a live class, is checked with `IsChildOf(T::StaticClass())`;
on success it is emplaced into `LoadedSoftClasses` and `LoadedObjects` and
returned, otherwise nullptr with no state change. -/
def LoadSynchronousCls (env : Env) (st : BoxState) (SoftClass : SoftPtr) :
    BoxState × Option OId :=
  match SoftClass.path with
  | some pa =>
    match env.loadSync pa with
    | some lc =>
      if env.isChildOf lc then
        ({ st with
            LoadedSoftClasses := insert (env.pathOf lc) st.LoadedSoftClasses,
            LoadedObjects := insert lc st.LoadedObjects }, some lc)
      else (st, none)
    | none => (st, none)
  | none => (st, none)

/-- The four registry-owned completion closures that the async load paths
bind: the two array overloads in CacheBox.cpp (lines 90-102 and 130-142) and
the two single-reference templates in CacheBox.h (lines 128-137 and 167-178). -/
inductive AsyncClosure where
  | batchObj (paths : List AssetPath)
  | batchCls (paths : List AssetPath)
  | singleObj (sp : SoftPtr)
  | singleCls (sp : SoftPtr)
deriving DecidableEq

/-- An in-flight Streaming Service request: the bound completion closure,
and whether the delegate was bound with `BindWeakLambda` (all four source
paths bind weakly to `this`). -/
structure PendingRequest where
  closure : AsyncClosure
  boundWeak : Bool
deriving DecidableEq

/-- Loop body of the object-array completion closure (CacheBox.cpp lines
92-100): `Cast<UObject>(LoadedObjectPath.ResolveObject())` — the cast to
`UObject` succeeds for every live object — then emplace into
`LoadedSoftObjects` and `LoadedObjects`. -/
def objBatchStep (env : Env) (s : BoxState) (pa : AssetPath) : BoxState :=
  match env.resolve pa with
  | some o =>
    { s with
        LoadedSoftObjects := insert (env.pathOf o) s.LoadedSoftObjects,
        LoadedObjects := insert o s.LoadedObjects }
  | none => s

/-- Loop body of the class-array completion closure (CacheBox.cpp lines
132-140): resolve, then emplace into `LoadedSoftClasses` and
`LoadedObjects`. -/
def clsBatchStep (env : Env) (s : BoxState) (pa : AssetPath) : BoxState :=
  match env.resolve pa with
  | some o =>
    { s with
        LoadedSoftClasses := insert (env.pathOf o) s.LoadedSoftClasses,
        LoadedObjects := insert o s.LoadedObjects }
  | none => s

/-- The state of the registry at the moment each closure invokes the
caller's delegate: all set updates of the closure body have been applied,
since every closure calls `DelegateToCall.ExecuteIfBound()` last.
The `singleObj` closure is `Cast<T>(SoftObject.Get())` then emplace into
both object sets (CacheBox.h lines 130-135); the `singleCls` closure checks
`SoftClass.IsValid()` and `IsChildOf` and then emplaces only the soft class
reference into `LoadedSoftClasses` (CacheBox.h lines 169-176). -/
def closureState (env : Env) (st : BoxState) (c : AsyncClosure) : BoxState :=
  match c with
  | AsyncClosure.batchObj paths => paths.foldl (objBatchStep env) st
  | AsyncClosure.batchCls paths => paths.foldl (clsBatchStep env) st
  | AsyncClosure.singleObj sp =>
    match sp.path with
    | some pa =>
      match env.resolve pa with
      | some o =>
        if env.castOk o then
          { st with
              LoadedSoftObjects := insert (env.pathOf o) st.LoadedSoftObjects,
              LoadedObjects := insert o st.LoadedObjects }
        else st
      | none => st
    | none => st
  | AsyncClosure.singleCls sp =>
    match sp.path with
    | some pa =>
      match env.resolve pa with
      | some c0 =>
        if env.isChildOf c0 then
          { st with LoadedSoftClasses := insert pa st.LoadedSoftClasses }
        else st
      | none => st
    | none => st

/-- Running a completion closure: apply its set updates, then invoke the
caller's delegate exactly once (`ExecuteIfBound` is the closure's last
statement in all four source paths).  Returns the state at delegate
invocation and the number of delegate invocations. -/
def runClosure (env : Env) (st : BoxState) (c : AsyncClosure) : BoxState × Nat :=
  (closureState env st c, 1)

/-- Delivery of the Streaming Service completion signal.  The four source
paths bind the closure with `FStreamableDelegate::BindWeakLambda(this, ...)`,
whose engine contract (spec, External Interfaces) is that the lambda does not
run when the weakly-bound registry is no longer alive; a non-weak binding
would run the closure regardless. -/
def streamCompletion (env : Env) (aliveAtCompletion : Bool) (st : BoxState)
    (pr : PendingRequest) : BoxState × Nat :=
  if pr.boundWeak && !aliveAtCompletion then (st, 0)
  else runClosure env st pr.closure

/-- `UCacheBox::RequestAsyncLoad(const TArray<TSoftObjectPtr<UObject>>&, ...)`
(CacheBox.cpp lines 71-109): null entries are filtered out; if the remaining
path list is empty the delegate is executed immediately (second component
counts immediate delegate invocations) and no request is submitted;
otherwise one weakly-bound batch request is submitted. -/
def RequestAsyncLoadObjArray (st : BoxState) (SoftObjectArray : List SoftPtr) :
    BoxState × Nat × Option PendingRequest :=
  let SoftObjectPathTemp :=
    SoftObjectArray.filterMap (fun sp => if sp.IsNull then none else sp.path)
  if SoftObjectPathTemp.isEmpty then (st, 1, none)
  else (st, 0, some ⟨AsyncClosure.batchObj SoftObjectPathTemp, true⟩)

/-- `UCacheBox::RequestAsyncLoad(const TArray<TSoftClassPtr<UObject>>&, ...)`
(CacheBox.cpp lines 111-149): identical shape to the object-array overload,
with the class-array closure. -/
def RequestAsyncLoadClsArray (st : BoxState) (SoftClassArray : List SoftPtr) :
    BoxState × Nat × Option PendingRequest :=
  let SoftClassPathTemp :=
    SoftClassArray.filterMap (fun sp => if sp.IsNull then none else sp.path)
  if SoftClassPathTemp.isEmpty then (st, 1, none)
  else (st, 0, some ⟨AsyncClosure.batchCls SoftClassPathTemp, true⟩)

/-- Template `UCacheBox::RequestAsyncLoad(TSoftObjectPtr<T>, ...)`
(CacheBox.h lines 120-144): a null reference executes the delegate
immediately; otherwise one weakly-bound single-object request is
submitted. -/
def RequestAsyncLoadObjSingle (st : BoxState) (SoftObject : SoftPtr) :
    BoxState × Nat × Option PendingRequest :=
  if SoftObject.IsNull then (st, 1, none)
  else (st, 0, some ⟨AsyncClosure.singleObj SoftObject, true⟩)

/-- Template `UCacheBox::RequestAsyncLoad(TSoftClassPtr<T>, ...)`
(CacheBox.h lines 160-185): a null reference executes the delegate
immediately; otherwise one weakly-bound single-class request is
submitted. -/
def RequestAsyncLoadClsSingle (st : BoxState) (SoftClass : SoftPtr) :
    BoxState × Nat × Option PendingRequest :=
  if SoftClass.IsNull then (st, 1, none)
  else (st, 0, some ⟨AsyncClosure.singleCls SoftClass, true⟩)

/-- Total number of times the caller's delegate is invoked over the lifetime
of one object-array request: immediate invocations at submission time plus
invocations when the Streaming Service signals completion of the submitted
batch (if one was submitted). -/
def asyncDelegateCallsObjArray (env : Env) (st : BoxState)
    (batch : List SoftPtr) (aliveAtCompletion : Bool) : Nat :=
  let r := RequestAsyncLoadObjArray st batch
  r.2.1 +
    (match r.2.2 with
     | some pr => (streamCompletion env aliveAtCompletion r.1 pr).2
     | none => 0)

/-- Total delegate invocations over the lifetime of one class-array
request. -/
def asyncDelegateCallsClsArray (env : Env) (st : BoxState)
    (batch : List SoftPtr) (aliveAtCompletion : Bool) : Nat :=
  let r := RequestAsyncLoadClsArray st batch
  r.2.1 +
    (match r.2.2 with
     | some pr => (streamCompletion env aliveAtCompletion r.1 pr).2
     | none => 0)

/-- `UCacheBox::DestroyObject` (CacheBox.cpp lines 209-237): the handle is a
`TWeakObjectPtr`, modelled as `Option OId` (`none` for a stale or null weak
pointer).  The object is removed from `CreatedObjects` first
(`Remove(InObject.Get())`; removing the null object is a no-op), then, if the
handle is still valid, the three-way type dispatch runs — the recorded event
carries the state current at that moment. -/
def DestroyObject (env : Env) (st : BoxState) (InObject : Option OId)
    (bPure : Bool) : BoxState × List TeardownEvent :=
  match InObject with
  | some o =>
    let st1 := { st with CreatedObjects := st.CreatedObjects.erase o }
    (st1, [⟨o, teardownOf env o bPure, st1⟩])
  | none => (st, [])

/-- Member list of a `Finset OId` in ascending order, modelling one full
iteration over a `TSet` (whose iteration order is unspecified). -/
def sortedMembers (s : Finset OId) : List OId :=
  Quot.liftOn s.val (fun l => l.insertionSort (fun a b => a ≤ b))
    (fun _ _ h =>
      List.eq_of_perm_of_sorted
        ((List.perm_insertionSort _ _).trans
          (h.trans (List.perm_insertionSort _ _).symm))
        (List.sorted_insertionSort _ _) (List.sorted_insertionSort _ _))

/-- `UCacheBox::DestroyAllObjects` (CacheBox.cpp lines 163-187): iterate the
members of `CreatedObjects` (iteration order is unspecified; modelled as the
ascending member list), run the type dispatch — always with immediate
destruction for generic objects — on every `IsValid` member while the set is
still populated, and only then clear the set. -/
def DestroyAllObjects (env : Env) (st : BoxState) :
    BoxState × List TeardownEvent :=
  let evs := (sortedMembers st.CreatedObjects).filterMap
    (fun o => if env.isValidObj o then some ⟨o, teardownOf env o true, st⟩
              else none)
  ({ st with CreatedObjects := ∅ }, evs)

/-- `UCacheBox::UnloadObject` (CacheBox.cpp lines 239-251): a no-op unless
the soft reference is valid (non-null and currently resolved); otherwise the
resolved object is removed from `LoadedObjects` and the path from
`LoadedSoftObjects` (the trailing `InObject.Reset()` acts on the by-value
parameter copy). -/
def UnloadObject (env : Env) (st : BoxState) (InObject : SoftPtr) : BoxState :=
  match InObject.path with
  | some pa =>
    match env.resolve pa with
    | some o =>
      { st with
          LoadedObjects := st.LoadedObjects.erase o,
          LoadedSoftObjects := st.LoadedSoftObjects.erase pa }
    | none => st
  | none => st

/-- `UCacheBox::UnloadClass` (CacheBox.cpp lines 253-264): a no-op unless the
soft class reference is valid; otherwise the path is removed from
`LoadedSoftClasses` only — the source removes nothing from `LoadedObjects`
(contrast `UnloadObject`). -/
def UnloadClass (env : Env) (st : BoxState) (InObject : SoftPtr) : BoxState :=
  match InObject.path with
  | some pa =>
    match env.resolve pa with
    | some _ => { st with LoadedSoftClasses := st.LoadedSoftClasses.erase pa }
    | none => st
  | none => st

/-- `UCacheBox::UnloadAllObjects` (CacheBox.cpp lines 189-207): reset every
held soft pointer (acting on loop-local copies of the set elements), then
clear `LoadedObjects`, `LoadedSoftObjects` and `LoadedSoftClasses`. -/
def UnloadAllObjects (st : BoxState) : BoxState :=
  { st with
      LoadedObjects := ∅,
      LoadedSoftObjects := ∅,
      LoadedSoftClasses := ∅ }

/-- Result of `UCacheBox::CreateActor` (CacheBox.h lines 263-291): the new
registry state, the returned handle, the entity the world spawned (if any),
and the teardown calls the registry issued on the spawn path — the source
issues none on any path. -/
structure ActorResult where
  state : BoxState
  result : Option OId
  spawned : Option OId
  destroyCalls : List TeardownEvent
deriving DecidableEq

/-- Template `UCacheBox::CreateActor` (CacheBox.h lines 263-291): an invalid
class fails; with a world present, `SpawnActor` runs and the spawned entity
is `Cast<T>`; only on cast success is it tracked in `CreatedObjects` and
returned.  On cast failure the function falls through to the failure return
without destroying or tracking the spawned entity. -/
def CreateActor (env : Env) (st : BoxState) (classValid : Bool) : ActorResult :=
  if classValid then
    if env.worldPresent then
      match env.spawnActor with
      | some a =>
        if env.castOk a then
          ⟨{ st with CreatedObjects := insert a st.CreatedObjects },
            some a, some a, []⟩
        else ⟨st, none, some a, []⟩
      | none => ⟨st, none, none, []⟩
    else ⟨st, none, none, []⟩
  else ⟨st, none, none, []⟩

/-- A `UCacheBox` object: its membership state plus whether `BeginDestroy`
has already run (`UObject::ConditionalBeginDestroy` runs `BeginDestroy` at
most once and returns false thereafter). -/
structure Box where
  st : BoxState
  destroyBegun : Bool
deriving DecidableEq

/-- `UCacheBox::BeginDestroy` (CacheBox.cpp lines 26-32):
`DestroyAllObjects()` then `UnloadAllObjects()`. -/
def BeginDestroy (env : Env) (st : BoxState) : BoxState × List TeardownEvent :=
  let r := DestroyAllObjects env st
  (UnloadAllObjects r.1, r.2)

/-- `UCacheBox::DestroyBox` (CacheBox.cpp lines 34-39):
`ConditionalBeginDestroy()`, returning its result; the teardown events of the
`BeginDestroy` run (none when destruction has already begun). -/
def DestroyBox (env : Env) (b : Box) : Box × Bool × List TeardownEvent :=
  if b.destroyBegun then (b, false, [])
  else
    let r := BeginDestroy env b.st
    (⟨r.1, true⟩, true, r.2)

/-- The empty registry state. -/
def emptyBoxState : BoxState :=
  ⟨∅, ∅, ∅, ∅⟩

/-- A concrete external environment used to evaluate the model: asset path 1
blocking-loads to object 4; paths 2 and 3 resolve to objects 9 and 7; casts
and class-compatibility checks succeed; objects are generic (neither widgets
nor actors) and live; a world is present and spawns entity 11. -/
def envW : Env :=
  { loadSync := fun pa => if pa = 1 then some 4 else none,
    resolve := fun pa => if pa = 2 then some 9 else if pa = 3 then some 7 else none,
    castOk := fun _ => true,
    isChildOf := fun _ => true,
    pathOf := fun o => o + 100,
    isWidget := fun _ => false,
    isActor := fun _ => false,
    isValidObj := fun _ => true,
    worldPresent := true,
    spawnActor := some 11 }

/-- Like `envW` but every `Cast<T>` to the requested subtype fails. -/
def envA : Env :=
  { envW with castOk := fun _ => false }

/-- A concrete populated registry state: object 5 created; object 7 loaded
with its class soft reference at path 3. -/
def stW : BoxState :=
  ⟨{5}, {7}, ∅, {3}⟩

/-- The teardown event `DestroyObject` records for object 5 in state
`stW`. -/
def eW : TeardownEvent :=
  ⟨5, TeardownKind.condBeginDestroy,
    ⟨Finset.erase {5} 5, {7}, ∅, {3}⟩⟩

/-- The pending request submitted for the one-valid-entry object batch. -/
def prW : PendingRequest :=
  ⟨AsyncClosure.batchObj [2], true⟩

/-! Helper lemmas about the batch completion-closure loops. -/

theorem objBatchStep_loadedObjects_subset (env : Env) (s : BoxState)
    (pa : AssetPath) :
    s.LoadedObjects ⊆ (objBatchStep env s pa).LoadedObjects := by
  unfold objBatchStep
  cases env.resolve pa with
  | none => exact Finset.Subset.refl _
  | some o => exact Finset.subset_insert _ _

theorem objBatchStep_loadedSoftObjects_subset (env : Env) (s : BoxState)
    (pa : AssetPath) :
    s.LoadedSoftObjects ⊆ (objBatchStep env s pa).LoadedSoftObjects := by
  unfold objBatchStep
  cases env.resolve pa with
  | none => exact Finset.Subset.refl _
  | some o => exact Finset.subset_insert _ _

theorem clsBatchStep_loadedObjects_subset (env : Env) (s : BoxState)
    (pa : AssetPath) :
    s.LoadedObjects ⊆ (clsBatchStep env s pa).LoadedObjects := by
  unfold clsBatchStep
  cases env.resolve pa with
  | none => exact Finset.Subset.refl _
  | some o => exact Finset.subset_insert _ _

theorem clsBatchStep_loadedSoftClasses_subset (env : Env) (s : BoxState)
    (pa : AssetPath) :
    s.LoadedSoftClasses ⊆ (clsBatchStep env s pa).LoadedSoftClasses := by
  unfold clsBatchStep
  cases env.resolve pa with
  | none => exact Finset.Subset.refl _
  | some o => exact Finset.subset_insert _ _

theorem foldl_objBatch_loadedObjects_subset (env : Env) (paths : List AssetPath) :
    ∀ s : BoxState,
      s.LoadedObjects ⊆ ((paths.foldl (objBatchStep env) s).LoadedObjects) := by
  induction paths with
  | nil => intro s; exact Finset.Subset.refl _
  | cons p ps ih =>
    intro s
    exact (objBatchStep_loadedObjects_subset env s p).trans (ih _)

theorem foldl_objBatch_loadedSoftObjects_subset (env : Env)
    (paths : List AssetPath) :
    ∀ s : BoxState,
      s.LoadedSoftObjects ⊆ ((paths.foldl (objBatchStep env) s).LoadedSoftObjects) := by
  induction paths with
  | nil => intro s; exact Finset.Subset.refl _
  | cons p ps ih =>
    intro s
    exact (objBatchStep_loadedSoftObjects_subset env s p).trans (ih _)

theorem foldl_clsBatch_loadedObjects_subset (env : Env) (paths : List AssetPath) :
    ∀ s : BoxState,
      s.LoadedObjects ⊆ ((paths.foldl (clsBatchStep env) s).LoadedObjects) := by
  induction paths with
  | nil => intro s; exact Finset.Subset.refl _
  | cons p ps ih =>
    intro s
    exact (clsBatchStep_loadedObjects_subset env s p).trans (ih _)

theorem foldl_clsBatch_loadedSoftClasses_subset (env : Env)
    (paths : List AssetPath) :
    ∀ s : BoxState,
      s.LoadedSoftClasses ⊆ ((paths.foldl (clsBatchStep env) s).LoadedSoftClasses) := by
  induction paths with
  | nil => intro s; exact Finset.Subset.refl _
  | cons p ps ih =>
    intro s
    exact (clsBatchStep_loadedSoftClasses_subset env s p).trans (ih _)

theorem foldl_objBatch_mem (env : Env) (pa : AssetPath) (o : OId)
    (hres : env.resolve pa = some o) (paths : List AssetPath) :
    ∀ s : BoxState, pa ∈ paths →
      o ∈ (paths.foldl (objBatchStep env) s).LoadedObjects ∧
      env.pathOf o ∈ (paths.foldl (objBatchStep env) s).LoadedSoftObjects := by
  induction paths with
  | nil => intro s h; cases h
  | cons p ps ih =>
    intro s h
    simp only [List.foldl_cons]
    rcases List.mem_cons.mp h with h1 | h1
    · subst h1
      refine ⟨foldl_objBatch_loadedObjects_subset env ps _ ?_,
              foldl_objBatch_loadedSoftObjects_subset env ps _ ?_⟩
      · simp [objBatchStep, hres]
      · simp [objBatchStep, hres]
    · exact ih _ h1

theorem foldl_clsBatch_mem (env : Env) (pa : AssetPath) (o : OId)
    (hres : env.resolve pa = some o) (paths : List AssetPath) :
    ∀ s : BoxState, pa ∈ paths →
      o ∈ (paths.foldl (clsBatchStep env) s).LoadedObjects ∧
      env.pathOf o ∈ (paths.foldl (clsBatchStep env) s).LoadedSoftClasses := by
  induction paths with
  | nil => intro s h; cases h
  | cons p ps ih =>
    intro s h
    simp only [List.foldl_cons]
    rcases List.mem_cons.mp h with h1 | h1
    · subst h1
      refine ⟨foldl_clsBatch_loadedObjects_subset env ps _ ?_,
              foldl_clsBatch_loadedSoftClasses_subset env ps _ ?_⟩
      · simp [clsBatchStep, hres]
      · simp [clsBatchStep, hres]
    · exact ih _ h1

theorem streamCompletion_dead_of_boundWeak (env : Env) (st2 : BoxState)
    (pr : PendingRequest) (hb : pr.boundWeak = true) :
    streamCompletion env false st2 pr = (st2, 0) := by
  simp [streamCompletion, hb]

/-- C1: For every batch of soft references (object or class) of any size,
including zero, `RequestAsyncLoad` causes the caller's completion delegate to
be invoked exactly once over the lifetime of the request — immediately when
everything is filtered out as null, at Streaming Service completion otherwise
(regardless of how many items fail to resolve) — provided the registry is
alive when completion is signalled. -/
theorem requestAsyncLoad_batch_completion_fires_once (env : Env)
    (st : BoxState) (batch : List SoftPtr) :
    asyncDelegateCallsObjArray env st batch true = 1 ∧
    asyncDelegateCallsClsArray env st batch true = 1 := by
  constructor
  · by_cases h :
      (batch.filterMap fun sp => if sp.IsNull then none else sp.path).isEmpty = true
    · simp [asyncDelegateCallsObjArray, RequestAsyncLoadObjArray, h]
    · simp [asyncDelegateCallsObjArray, RequestAsyncLoadObjArray, h,
        streamCompletion, runClosure]
  · by_cases h :
      (batch.filterMap fun sp => if sp.IsNull then none else sp.path).isEmpty = true
    · simp [asyncDelegateCallsClsArray, RequestAsyncLoadClsArray, h]
    · simp [asyncDelegateCallsClsArray, RequestAsyncLoadClsArray, h,
        streamCompletion, runClosure]

/-- C2: For every non-null soft reference, single-reference
`LoadSynchronous` (object and class variants) either returns a resolved
object that is then a member of `LoadedObjects` and of the corresponding
soft-reference set, or returns nullptr with the registry state exactly as it
was before the call. -/
theorem loadSynchronous_single_sound (env : Env) (st : BoxState)
    (sp : SoftPtr) (h : sp.IsNull = false) :
    ((∃ o, (LoadSynchronousObj env st sp).2 = some o ∧
        o ∈ (LoadSynchronousObj env st sp).1.LoadedObjects ∧
        env.pathOf o ∈ (LoadSynchronousObj env st sp).1.LoadedSoftObjects) ∨
      ((LoadSynchronousObj env st sp).2 = none ∧
        (LoadSynchronousObj env st sp).1 = st)) ∧
    ((∃ c, (LoadSynchronousCls env st sp).2 = some c ∧
        c ∈ (LoadSynchronousCls env st sp).1.LoadedObjects ∧
        env.pathOf c ∈ (LoadSynchronousCls env st sp).1.LoadedSoftClasses) ∨
      ((LoadSynchronousCls env st sp).2 = none ∧
        (LoadSynchronousCls env st sp).1 = st)) := by
  cases hp : sp.path with
  | none => simp [SoftPtr.IsNull, hp] at h
  | some pa =>
    constructor
    · cases hl : env.loadSync pa with
      | none => right; simp [LoadSynchronousObj, hp, hl]
      | some lo =>
        by_cases hc : env.castOk lo = true
        · left
          exact ⟨lo, by simp [LoadSynchronousObj, hp, hl, hc]⟩
        · right; simp [LoadSynchronousObj, hp, hl, hc]
    · cases hl : env.loadSync pa with
      | none => right; simp [LoadSynchronousCls, hp, hl]
      | some lc =>
        by_cases hc : env.isChildOf lc = true
        · left
          exact ⟨lc, by simp [LoadSynchronousCls, hp, hl, hc]⟩
        · right; simp [LoadSynchronousCls, hp, hl, hc]

/-- Witness for C2 at a concrete input: the non-null reference at path 1
blocking-loads to object 4 in `envW`. -/
theorem loadSynchronous_single_sound_witness :
    (SoftPtr.mk (some 1)).IsNull = false ∧
    (((∃ o, (LoadSynchronousObj envW stW ⟨some 1⟩).2 = some o ∧
        o ∈ (LoadSynchronousObj envW stW ⟨some 1⟩).1.LoadedObjects ∧
        envW.pathOf o ∈ (LoadSynchronousObj envW stW ⟨some 1⟩).1.LoadedSoftObjects) ∨
      ((LoadSynchronousObj envW stW ⟨some 1⟩).2 = none ∧
        (LoadSynchronousObj envW stW ⟨some 1⟩).1 = stW)) ∧
    ((∃ c, (LoadSynchronousCls envW stW ⟨some 1⟩).2 = some c ∧
        c ∈ (LoadSynchronousCls envW stW ⟨some 1⟩).1.LoadedObjects ∧
        envW.pathOf c ∈ (LoadSynchronousCls envW stW ⟨some 1⟩).1.LoadedSoftClasses) ∨
      ((LoadSynchronousCls envW stW ⟨some 1⟩).2 = none ∧
        (LoadSynchronousCls envW stW ⟨some 1⟩).1 = stW))) :=
  ⟨by decide, loadSynchronous_single_sound envW stW ⟨some 1⟩ (by decide)⟩

/-- C3 counterexample: in `DestroyAllObjects` the type-specific teardown of
created object 5 executes while `CreatedObjects` still contains 5 — the set
is cleared only after the loop, so membership is not removed before the
teardown runs. -/
theorem destroyAllObjects_teardown_sees_member :
    (DestroyAllObjects envW stW).2 =
      [⟨5, TeardownKind.condBeginDestroy, stW⟩] ∧
    5 ∈ stW.CreatedObjects := by decide

/-- C3 amended: `DestroyObject` removes the handle from `CreatedObjects`
before executing the type-specific teardown, so a re-entrant call observes
the object as already absent; `DestroyAllObjects`, however, executes every
teardown against the still-populated snapshot state and clears the set only
after all teardowns have run. -/
theorem destroy_removal_order_amended (env : Env) (st : BoxState)
    (wp : Option OId) (bPure : Bool) :
    (∀ e ∈ (DestroyObject env st wp bPure).2,
        e.target ∉ e.stateAtExec.CreatedObjects) ∧
    (∀ e ∈ (DestroyAllObjects env st).2, e.stateAtExec = st) ∧
    (DestroyAllObjects env st).1.CreatedObjects = ∅ := by
  refine ⟨?_, ?_, rfl⟩
  · intro e he
    cases wp with
    | none => simp [DestroyObject] at he
    | some o =>
      simp only [DestroyObject, List.mem_singleton] at he
      subst he
      simp [Finset.not_mem_erase]
  · intro e he
    simp only [DestroyAllObjects, List.mem_filterMap] at he
    rcases he with ⟨a, _, hfa⟩
    by_cases hv : env.isValidObj a = true
    · simp only [hv, if_true, Option.some.injEq] at hfa
      rw [← hfa]
    · simp [hv] at hfa

/-- Witness for C3 amended at a concrete input: destroying created object 5
in `stW` records one teardown whose execution state no longer contains 5. -/
theorem destroy_removal_order_amended_witness :
    eW ∈ (DestroyObject envW stW (some 5) true).2 ∧
    eW.target ∉ eW.stateAtExec.CreatedObjects :=
  ⟨by decide,
   (destroy_removal_order_amended envW stW (some 5) true).1 eW (by decide)⟩

/-- C4 (code bug evidence): in `envW`, path 3 resolves to the previously
loaded class object 7, which `stW` holds in both `LoadedObjects` and
`LoadedSoftClasses`.  `UnloadClass` on this valid reference removes the path
from `LoadedSoftClasses` but leaves object 7 in `LoadedObjects`, so the
registry keeps a strong reference although the source's own comment says the
reference is removed to wait for garbage collection (contrast
`UnloadObject`, which removes from both sets). -/
theorem unloadClass_keeps_strong_reference :
    envW.resolve 3 = some 7 ∧
    7 ∈ stW.LoadedObjects ∧ 3 ∈ stW.LoadedSoftClasses ∧
    (UnloadClass envW stW ⟨some 3⟩).LoadedSoftClasses = ∅ ∧
    7 ∈ (UnloadClass envW stW ⟨some 3⟩).LoadedObjects ∧
    (UnloadClass envW stW ⟨none⟩) = stW ∧
    (UnloadClass envW stW ⟨some 9⟩) = stW := by decide

/-- C5 counterexample: a single-class async request at path 3 is submitted,
the Streaming Service resolves it to live class 7 which passes the
type-compatibility check, yet after the completion closure has run (registry
alive) `LoadedObjects` is still empty — the successfully resolved class was
added only to `LoadedSoftClasses`. -/
theorem asyncClassSingle_not_in_loadedObjects :
    (RequestAsyncLoadClsSingle emptyBoxState ⟨some 3⟩).2.2 =
      some ⟨AsyncClosure.singleCls ⟨some 3⟩, true⟩ ∧
    envW.resolve 3 = some 7 ∧ envW.isChildOf 7 = true ∧
    (streamCompletion envW true emptyBoxState
      ⟨AsyncClosure.singleCls ⟨some 3⟩, true⟩).1.LoadedObjects = ∅ ∧
    3 ∈ (streamCompletion envW true emptyBoxState
      ⟨AsyncClosure.singleCls ⟨some 3⟩, true⟩).1.LoadedSoftClasses := by decide

/-- C5 amended: when the Streaming Service signals completion, the state at
which the caller's delegate is invoked (`closureState`, reached before
`ExecuteIfBound`) contains every successfully resolved object in
`LoadedObjects` and the corresponding soft-reference set for the object-array,
class-array and single-object requests; the single-class request instead
records only the soft class reference in `LoadedSoftClasses` and leaves
`LoadedObjects` unchanged. -/
theorem async_completion_updates_amended (env : Env) (st : BoxState)
    (paths : List AssetPath) (pa : AssetPath) (o : OId) (spO spC : SoftPtr)
    (hmem : pa ∈ paths) (hres : env.resolve pa = some o) :
    (o ∈ (closureState env st (AsyncClosure.batchObj paths)).LoadedObjects ∧
      env.pathOf o ∈
        (closureState env st (AsyncClosure.batchObj paths)).LoadedSoftObjects) ∧
    (o ∈ (closureState env st (AsyncClosure.batchCls paths)).LoadedObjects ∧
      env.pathOf o ∈
        (closureState env st (AsyncClosure.batchCls paths)).LoadedSoftClasses) ∧
    (spO.path = some pa → env.castOk o = true →
      o ∈ (closureState env st (AsyncClosure.singleObj spO)).LoadedObjects ∧
      env.pathOf o ∈
        (closureState env st (AsyncClosure.singleObj spO)).LoadedSoftObjects) ∧
    (spC.path = some pa → env.isChildOf o = true →
      pa ∈ (closureState env st (AsyncClosure.singleCls spC)).LoadedSoftClasses ∧
      (closureState env st (AsyncClosure.singleCls spC)).LoadedObjects =
        st.LoadedObjects) := by
  refine ⟨?_, ?_, ?_, ?_⟩
  · exact foldl_objBatch_mem env pa o hres paths st hmem
  · exact foldl_clsBatch_mem env pa o hres paths st hmem
  · intro hpO hcast
    simp [closureState, hpO, hres, hcast]
  · intro hpC hchild
    simp [closureState, hpC, hres, hchild]

/-- Witness for C5 amended at a concrete input: path 3 in the one-element
batch resolves to object 7 in `envW`. -/
theorem async_completion_updates_amended_witness :
    (3 : AssetPath) ∈ [(3 : AssetPath)] ∧ envW.resolve 3 = some 7 ∧
    ((7 ∈ (closureState envW emptyBoxState (AsyncClosure.batchObj [3])).LoadedObjects ∧
      envW.pathOf 7 ∈
        (closureState envW emptyBoxState (AsyncClosure.batchObj [3])).LoadedSoftObjects) ∧
    (7 ∈ (closureState envW emptyBoxState (AsyncClosure.batchCls [3])).LoadedObjects ∧
      envW.pathOf 7 ∈
        (closureState envW emptyBoxState (AsyncClosure.batchCls [3])).LoadedSoftClasses) ∧
    ((SoftPtr.mk (some 3)).path = some 3 → envW.castOk 7 = true →
      7 ∈ (closureState envW emptyBoxState
        (AsyncClosure.singleObj ⟨some 3⟩)).LoadedObjects ∧
      envW.pathOf 7 ∈ (closureState envW emptyBoxState
        (AsyncClosure.singleObj ⟨some 3⟩)).LoadedSoftObjects) ∧
    ((SoftPtr.mk (some 3)).path = some 3 → envW.isChildOf 7 = true →
      (3 : AssetPath) ∈ (closureState envW emptyBoxState
        (AsyncClosure.singleCls ⟨some 3⟩)).LoadedSoftClasses ∧
      (closureState envW emptyBoxState
        (AsyncClosure.singleCls ⟨some 3⟩)).LoadedObjects =
        emptyBoxState.LoadedObjects)) :=
  ⟨by decide, by decide,
   async_completion_updates_amended envW emptyBoxState [3] 3 7 ⟨some 3⟩
     ⟨some 3⟩ (by decide) (by decide)⟩

/-- C6: when every reference in the batch is null (including the empty
batch), both array overloads of `RequestAsyncLoad` execute the completion
delegate immediately and synchronously before returning, submit nothing to
the Streaming Service, and leave the registry state untouched. -/
theorem requestAsyncLoad_all_null_immediate (st : BoxState)
    (batchO batchC : List SoftPtr)
    (hO : ∀ sp ∈ batchO, sp.IsNull = true)
    (hC : ∀ sp ∈ batchC, sp.IsNull = true) :
    RequestAsyncLoadObjArray st batchO = (st, 1, none) ∧
    RequestAsyncLoadClsArray st batchC = (st, 1, none) := by
  have h1 : batchO.filterMap (fun sp => if sp.IsNull then none else sp.path) = [] := by
    rw [List.filterMap_eq_nil_iff]
    intro sp hsp
    simp [hO sp hsp]
  have h2 : batchC.filterMap (fun sp => if sp.IsNull then none else sp.path) = [] := by
    rw [List.filterMap_eq_nil_iff]
    intro sp hsp
    simp [hC sp hsp]
  constructor
  · simp [RequestAsyncLoadObjArray, h1]
  · simp [RequestAsyncLoadClsArray, h2]

/-- Witness for C6 at a concrete input: a batch holding one null reference
and the empty batch. -/
theorem requestAsyncLoad_all_null_immediate_witness :
    (∀ sp ∈ [(⟨none⟩ : SoftPtr)], sp.IsNull = true) ∧
    (∀ sp ∈ ([] : List SoftPtr), sp.IsNull = true) ∧
    (RequestAsyncLoadObjArray stW [⟨none⟩] = (stW, 1, none) ∧
      RequestAsyncLoadClsArray stW [] = (stW, 1, none)) :=
  ⟨by decide, by decide,
   requestAsyncLoad_all_null_immediate stW [⟨none⟩] [] (by decide) (by decide)⟩

/-- C7: every pending request any of the four `RequestAsyncLoad` paths
submits is bound with `BindWeakLambda`, so if the registry has been
destroyed before the Streaming Service signals completion, the completion
closure does not run: no membership set is touched and the delegate is not
invoked. -/
theorem destroyed_registry_closure_noop (env : Env) (st st2 : BoxState)
    (batch : List SoftPtr) (sp : SoftPtr) (pr : PendingRequest) :
    ((RequestAsyncLoadObjArray st batch).2.2 = some pr →
      streamCompletion env false st2 pr = (st2, 0)) ∧
    ((RequestAsyncLoadClsArray st batch).2.2 = some pr →
      streamCompletion env false st2 pr = (st2, 0)) ∧
    ((RequestAsyncLoadObjSingle st sp).2.2 = some pr →
      streamCompletion env false st2 pr = (st2, 0)) ∧
    ((RequestAsyncLoadClsSingle st sp).2.2 = some pr →
      streamCompletion env false st2 pr = (st2, 0)) := by
  refine ⟨?_, ?_, ?_, ?_⟩ <;> intro h
  · simp only [RequestAsyncLoadObjArray] at h
    split at h
    · simp at h
    · simp only [Option.some.injEq] at h
      exact streamCompletion_dead_of_boundWeak env st2 pr (by rw [← h])
  · simp only [RequestAsyncLoadClsArray] at h
    split at h
    · simp at h
    · simp only [Option.some.injEq] at h
      exact streamCompletion_dead_of_boundWeak env st2 pr (by rw [← h])
  · simp only [RequestAsyncLoadObjSingle] at h
    split at h
    · simp at h
    · simp only [Option.some.injEq] at h
      exact streamCompletion_dead_of_boundWeak env st2 pr (by rw [← h])
  · simp only [RequestAsyncLoadClsSingle] at h
    split at h
    · simp at h
    · simp only [Option.some.injEq] at h
      exact streamCompletion_dead_of_boundWeak env st2 pr (by rw [← h])

/-- Witness for C7 at a concrete input: the one-valid-entry object batch
submits `prW`, and completion with the registry destroyed is a no-op. -/
theorem destroyed_registry_closure_noop_witness :
    (RequestAsyncLoadObjArray emptyBoxState [⟨some 2⟩]).2.2 = some prW ∧
    streamCompletion envW false emptyBoxState prW = (emptyBoxState, 0) :=
  ⟨by decide,
   (destroyed_registry_closure_noop envW emptyBoxState emptyBoxState
     [⟨some 2⟩] ⟨some 2⟩ prW).1 (by decide)⟩

/-- C8: when `CreateActor` is called with a valid class, the world spawns the
entity but the `Cast<T>` to the requested subtype fails, the spawned entity
is not added to `CreatedObjects`, the call returns nullptr, and the registry
issues no teardown on the entity — it stays spawned and untracked. -/
theorem createActor_cast_fail_untracked (env : Env) (st : BoxState) (a : OId)
    (hw : env.worldPresent = true) (hs : env.spawnActor = some a)
    (hc : env.castOk a = false) :
    CreateActor env st true = ⟨st, none, some a, []⟩ := by
  simp [CreateActor, hw, hs, hc]

/-- Witness for C8 at a concrete input: in `envA` the world spawns entity 11
and every cast fails. -/
theorem createActor_cast_fail_untracked_witness :
    envA.worldPresent = true ∧ envA.spawnActor = some 11 ∧
    envA.castOk 11 = false ∧
    CreateActor envA stW true = ⟨stW, none, some 11, []⟩ :=
  ⟨by decide, by decide, by decide,
   createActor_cast_fail_untracked envA stW 11 (by decide) (by decide)
     (by decide)⟩

/-- C9: a first `DestroyBox` on a live registry drains all four membership
sets, and a second `DestroyBox` is a safe no-op — `ConditionalBeginDestroy`
does not run `BeginDestroy` again, so the second call returns the same box,
reports false, and performs no teardown of any object. -/
theorem destroyBox_idempotent (env : Env) (st0 : BoxState) :
    (DestroyBox env ⟨st0, false⟩).1.st.CreatedObjects = ∅ ∧
    (DestroyBox env ⟨st0, false⟩).1.st.LoadedObjects = ∅ ∧
    (DestroyBox env ⟨st0, false⟩).1.st.LoadedSoftObjects = ∅ ∧
    (DestroyBox env ⟨st0, false⟩).1.st.LoadedSoftClasses = ∅ ∧
    DestroyBox env (DestroyBox env ⟨st0, false⟩).1 =
      ((DestroyBox env ⟨st0, false⟩).1, false, []) :=
  ⟨rfl, rfl, rfl, rfl, rfl⟩

/-- C10: the created and loaded halves of the registry state do not
interfere: `UnloadObject`, `UnloadClass` and `UnloadAllObjects` leave
`CreatedObjects` unchanged, while `DestroyObject` and `DestroyAllObjects`
leave `LoadedObjects`, `LoadedSoftObjects` and `LoadedSoftClasses`
unchanged. -/
theorem unload_destroy_frame_conditions (env : Env) (st : BoxState)
    (sp : SoftPtr) (wp : Option OId) (bPure : Bool) :
    (UnloadObject env st sp).CreatedObjects = st.CreatedObjects ∧
    (UnloadClass env st sp).CreatedObjects = st.CreatedObjects ∧
    (UnloadAllObjects st).CreatedObjects = st.CreatedObjects ∧
    (DestroyObject env st wp bPure).1.LoadedObjects = st.LoadedObjects ∧
    (DestroyObject env st wp bPure).1.LoadedSoftObjects = st.LoadedSoftObjects ∧
    (DestroyObject env st wp bPure).1.LoadedSoftClasses = st.LoadedSoftClasses ∧
    (DestroyAllObjects env st).1.LoadedObjects = st.LoadedObjects ∧
    (DestroyAllObjects env st).1.LoadedSoftObjects = st.LoadedSoftObjects ∧
    (DestroyAllObjects env st).1.LoadedSoftClasses = st.LoadedSoftClasses := by
  refine ⟨?_, ?_, rfl, ?_, ?_, ?_, rfl, rfl, rfl⟩
  · cases hp : sp.path with
    | none => simp [UnloadObject, hp]
    | some pa => cases hr : env.resolve pa <;> simp [UnloadObject, hp, hr]
  · cases hp : sp.path with
    | none => simp [UnloadClass, hp]
    | some pa => cases hr : env.resolve pa <;> simp [UnloadClass, hp, hr]
  · cases wp <;> simp [DestroyObject]
  · cases wp <;> simp [DestroyObject]
  · cases wp <;> simp [DestroyObject]
